import Mathlib

/-
Verification of the rule-processing engine of titanium-code-processor
(lib/CodeProcessor.js).  The definitions below are a shallow embedding of
the source: JS objects become association lists, the walker's mutable
fields become an explicit state record, and every event fired is recorded
in an explicit trace.  External collaborators (file system, UglifyJS
parser) are parameters.
-/

namespace CodeProc

/-- A context object as built by the method _createScope:
the fields name, file, line, col (JSContext in the source docs). -/
structure Context where
  name : String
  file : String
  line : Nat
  col : Nat
deriving DecidableEq

/-- A statically tracked value (JSValue in the source docs): a type tag or
none when the type is unknown, an optional concrete value, and the optional
originating binding name. -/
structure JSValue where
  type : Option String
  value : Option String
  name : Option String
deriving DecidableEq

/-- The unknown-type marker: a JSValue whose type is not computed. -/
def unknownJSValue : JSValue := { type := none, value := none, name := none }

/-- A scope as built by the method _createScope: a context and the symbol
table (an ordered mapping from names to values). -/
structure Scope where
  context : Context
  symbols : List (String × JSValue)
deriving DecidableEq

/-- A value stored in an event payload object. -/
inductive EVal where
  | vs (s : String)
  | vn (n : Nat)
  | vctx (c : Context)
  | vUndefined
deriving DecidableEq

/-- One observable action of the engine: a process-state event with its
payload object (fired by the method _fireProcessStateEvent), a rule-event
firing (fired by the method _fireRuleEvent), or one evaluation of a node
handler (one call of a per-kind method such as _processRuleNum). -/
inductive TraceEvent where
  | stateEvent (name : String) (payload : List (String × EVal))
  | ruleFire (ruleName : String) (pre : Bool)
  | handlerEval (ruleName : String)
deriving DecidableEq

/-- A JS value appearing as a property of a node info object: a string, a
position object such as the start and end fields, or undefined (absent). -/
inductive RVal where
  | rstr (s : String)
  | rpos (line col : Nat)
  | rUndefined
deriving DecidableEq

/-- JS truthiness of an RVal: the empty string and undefined are falsy. -/
def RVal.truthy : RVal → Bool
  | .rstr s => !(s == "")
  | .rpos _ _ => true
  | .rUndefined => false

/-- A node info object (rule[0] in the source): an ordered JS object,
embedded as an association list with unique keys. -/
abbrev RuleInfo := List (String × RVal)

/-- JS property access on a node info object: undefined when absent. -/
def objGet (o : RuleInfo) (k : String) : RVal :=
  (o.lookup k).getD .rUndefined

/-- The key-validation loop of the method _processRule.  The source iterates
with a for-in loop over the ARRAY of keys, so the loop variable ranges over
the index strings of that array, and the loop then tests ruleInfo[i] — the
property NAMED BY THE INDEX STRING — against the three recognized key names:
it throws only when such a property exists, is truthy and differs from the
strings it is compared with. -/
def unrecognizedKeyCheck (info : RuleInfo) : Bool :=
  (List.range info.length).any fun i =>
    let v := objGet info (toString i)
    v.truthy && !(v == RVal.rstr "name") && !(v == RVal.rstr "start") && !(v == RVal.rstr "end")

/-- The missing-key check of the method _processRule: name, start and end
must all be truthy. -/
def missingInfoKey (info : RuleInfo) : Bool :=
  !(objGet info "name").truthy || !(objGet info "start").truthy || !(objGet info "end").truthy

/-- The rule name of a node info object, as used for handler dispatch. -/
def infoName (info : RuleInfo) : String :=
  match objGet info "name" with
  | .rstr s => s
  | _ => ""

/-- The method _processRule on one node: validate the node info, then
evaluate the handler and fire the pre-order rule event, then evaluate the
handler a second time and fire the post-order rule event.  The source passes
a fresh handler call as the value argument of each of the two firings. -/
def processRule (info : RuleInfo) : Except String (List TraceEvent) :=
  if unrecognizedKeyCheck info then
    Except.error "Internal error: unrecognized rule"
  else if missingInfoKey info then
    Except.error "Internal error: missing rule key"
  else
    Except.ok [TraceEvent.handlerEval (infoName info), TraceEvent.ruleFire (infoName info) true,
               TraceEvent.handlerEval (infoName info), TraceEvent.ruleFire (infoName info) false]

/-- A well-formed node info for a number literal node. -/
def numInfo : RuleInfo := [("name", RVal.rstr "num"), ("start", RVal.rpos 1 0), ("end", RVal.rpos 1 1)]

/-- A node info carrying an unrecognized extra key beside the three
recognized fields. -/
def extraKeyInfo : RuleInfo :=
  [("name", RVal.rstr "num"), ("start", RVal.rpos 1 0), ("end", RVal.rpos 1 1), ("extra", RVal.rstr "x")]

/-- Counts the handler evaluations for a rule name in a trace. -/
def handlerEvalCount (tr : List TraceEvent) (nm : String) : Nat :=
  tr.count (TraceEvent.handlerEval nm)

/-- Extracts the trace of a successful run, the empty trace on error. -/
def traceOf (r : Except String (List TraceEvent)) : List TraceEvent :=
  match r with
  | .ok tr => tr
  | .error _ => []

/-- C1: on a well-formed number node, the dispatcher fires the rule event
exactly twice (pre then post), but it evaluates the node handler TWICE, once
as the value argument of each firing: the handler-evaluation count in the
trace is 2, not the single evaluation the claim requires. -/
theorem c1_handler_evaluated_twice :
    processRule numInfo =
      Except.ok [TraceEvent.handlerEval "num", TraceEvent.ruleFire "num" true,
                 TraceEvent.handlerEval "num", TraceEvent.ruleFire "num" false]
    ∧ handlerEvalCount (traceOf (processRule numInfo)) "num" = 2
    ∧ handlerEvalCount (traceOf (processRule numInfo)) "num" ≠ 1 := by
  refine ⟨rfl, by decide, by decide⟩

/-- C3: a node whose info carries the unrecognized extra key is NOT rejected:
the validation loop inspects properties named by array indices rather than
the keys themselves, so no fatal internal error is raised and both rule
events fire for the node. -/
theorem c3_extra_key_not_rejected :
    processRule extraKeyInfo =
      Except.ok [TraceEvent.handlerEval "num", TraceEvent.ruleFire "num" true,
                 TraceEvent.handlerEval "num", TraceEvent.ruleFire "num" false] := rfl

/-- The two ordered callback lists kept for one rule name in a listener set:
listener callbacks are embedded as numeric identifiers, in registration
order. -/
structure RuleLists where
  pre : List Nat
  post : List Nat
deriving DecidableEq

/-- Selects the pre or the post list of a RuleLists record. -/
def RuleLists.sel (l : RuleLists) (pre : Bool) : List Nat :=
  if pre then l.pre else l.post

/-- The method _fireRuleEvent: invoke the listeners registered for the rule
name (the pre or post list, by phase), then the allrules listeners — but the
source reuses the loop counter i of the first loop WITHOUT resetting it, so
the second loop starts at index i = (number of specific listeners just
invoked).  Returns the listener identifiers in invocation order. -/
def fireRuleEventListeners (rl : List (String × RuleLists)) (ruleName : String) (pre : Bool) :
    List Nat :=
  let specific : List Nat :=
    match rl.lookup ruleName with
    | some l => l.sel pre
    | none => []
  let wild : List Nat :=
    match rl.lookup "allrules" with
    | some l => l.sel pre
    | none => []
  specific ++ wild.drop specific.length

/-- One listener set: an optional tag and the per-rule-name listener lists
(the processStateListeners field plays no part in the rule-event claims). -/
structure ListenerSet where
  tag : Option String
  ruleListeners : List (String × RuleLists)
deriving DecidableEq

/-- The listener-set collection of a processor instance: the tagged sets in
the order in which their tags were first used, and the default set. -/
structure Listeners where
  taggedListeners : List ListenerSet
  defaultListeners : ListenerSet
deriving DecidableEq

/-- The listener-set collection built by the constructor: no tagged set, an
empty default set. -/
def Listeners.init : Listeners :=
  { taggedListeners := [], defaultListeners := { tag := none, ruleListeners := [] } }

/-- Pushes a callback onto the pre or post list of one rule record. -/
def pushListener (pre : Bool) (cb : Nat) (l : RuleLists) : RuleLists :=
  if pre then { l with pre := l.pre ++ [cb] } else { l with post := l.post ++ [cb] }

/-- Appends a callback to the pre or post list kept for a rule name,
creating an empty record for that name first when none is present yet. -/
def addToRuleLists (rls : List (String × RuleLists)) (name : String) (pre : Bool) (cb : Nat) :
    List (String × RuleLists) :=
  match rls.lookup name with
  | some _ =>
    rls.map fun p => if p.1 == name then (p.1, pushListener pre cb p.2) else p
  | none =>
    rls ++ [(name, pushListener pre cb { pre := [], post := [] })]

/-- The third argument of addRuleListener as the source distinguishes it:
absent, a tag string, or a boolean (detected with is(tag, "Boolean")). -/
inductive TagArg where
  | noArg
  | tagOf (t : String)
  | boolOf (b : Bool)
deriving DecidableEq

/-- The method addRuleListener: a Boolean third argument is re-interpreted as
the preorder flag and the tag is cleared before the listener set is chosen;
the method _getTaggedListeners then returns the default set when the tag is
absent or falsy (the empty string), the tagged set with that tag otherwise,
appending a new tagged set when none matches; finally the callback is pushed
onto the pre or post list for the rule name in the chosen set. -/
def addRuleListener (ls : Listeners) (name : String) (cb : Nat) (tagArg : TagArg)
    (preFlag : Bool) : Listeners :=
  let tp : Option String × Bool :=
    match tagArg with
    | .boolOf b => (none, b)
    | .tagOf t => (some t, preFlag)
    | .noArg => (none, preFlag)
  match tp.1, tp.2 with
  | some t, pre =>
    if t == "" then
      { ls with defaultListeners :=
          { ls.defaultListeners with
              ruleListeners := addToRuleLists ls.defaultListeners.ruleListeners name pre cb } }
    else if ls.taggedListeners.any (fun s => s.tag == some t) then
      { ls with taggedListeners :=
          ls.taggedListeners.map fun s =>
            if s.tag == some t then
              { s with ruleListeners := addToRuleLists s.ruleListeners name pre cb }
            else s }
    else
      { ls with taggedListeners :=
          ls.taggedListeners ++ [{ tag := some t, ruleListeners := addToRuleLists [] name pre cb }] }
  | none, pre =>
    { ls with defaultListeners :=
        { ls.defaultListeners with
            ruleListeners := addToRuleLists ls.defaultListeners.ruleListeners name pre cb } }

/-- The listener list registered for one phase of a rule name in a listener
set (empty when the name has no record). -/
def ruleListOf (s : ListenerSet) (name : String) (pre : Bool) : List Nat :=
  ((s.ruleListeners.lookup name).getD { pre := [], post := [] }).sel pre

/-- A listener list with one post-order listener (id 10) for the rule name
Call and one post-order listener (id 20) for the wildcard name allrules. -/
def c2Listeners : List (String × RuleLists) :=
  [("Call", { pre := [], post := [10] }), ("allrules", { pre := [], post := [20] })]

/-- C2: with one specific post-order listener for Call and one allrules
post-order listener in the same set, a Call post-order firing invokes only
the specific listener: the wildcard listener (id 20) is skipped, because the
loop counter of the specific loop is reused unreset for the wildcard loop. -/
theorem c2_wildcard_listener_skipped :
    fireRuleEventListeners c2Listeners "Call" false = [10]
    ∧ 20 ∉ fireRuleEventListeners c2Listeners "Call" false
    ∧ fireRuleEventListeners c2Listeners "Call" false ≠ [10, 20] := by
  refine ⟨by decide, by decide, by decide⟩

/-- Helper: looking up a key in an association list extended on the right
with that key finds the new entry when the key was absent before. -/
theorem lookup_append_singleton (rls : List (String × RuleLists)) (name : String)
    (v : RuleLists) (h : rls.lookup name = none) :
    (rls ++ [(name, v)]).lookup name = some v := by
  induction rls with
  | nil => simp [List.lookup]
  | cons hd tl ih =>
    obtain ⟨k, w⟩ := hd
    rw [List.lookup_cons] at h
    cases hb : (name == k) with
    | true => rw [hb] at h; exact absurd h (by simp)
    | false =>
      rw [hb] at h
      rw [List.cons_append, List.lookup_cons, hb]
      exact ih h

/-- Helper: looking up a key after mapping an update over the entries whose
key equals that key yields the updated value. -/
theorem lookup_map_update (rls : List (String × RuleLists)) (name : String)
    (f : RuleLists → RuleLists) :
    (rls.map fun p => if p.1 == name then (p.1, f p.2) else p).lookup name
      = (rls.lookup name).map f := by
  induction rls with
  | nil => rfl
  | cons hd tl ih =>
    obtain ⟨k, v⟩ := hd
    by_cases h : k = name
    · subst h
      simp only [List.map_cons, beq_self_eq_true, if_true, List.lookup_cons]
      rfl
    · have hb : (k == name) = false := beq_eq_false_iff_ne.mpr h
      have hb2 : (name == k) = false := beq_eq_false_iff_ne.mpr (Ne.symm h)
      simp only [List.map_cons, hb, Bool.false_eq_true, if_false, List.lookup_cons, hb2, ih]

/-- Helper: after addToRuleLists, the record for the registered name holds
the pushed callback: the old record (or a fresh empty one) updated on the
selected phase list. -/
theorem addToRuleLists_lookup (rls : List (String × RuleLists)) (name : String)
    (pre : Bool) (cb : Nat) :
    (addToRuleLists rls name pre cb).lookup name
      = some (pushListener pre cb ((rls.lookup name).getD { pre := [], post := [] })) := by
  unfold addToRuleLists
  split
  next l h =>
    rw [lookup_map_update rls name (pushListener pre cb), h]
    rfl
  next h =>
    rw [h, Option.getD_none]
    exact lookup_append_singleton rls name _ h

/-- Helper: pushing a callback for one phase extends that phase's list at the
end and leaves the other phase's list unchanged. -/
theorem sel_pushListener (b : Bool) (cb : Nat) (l : RuleLists) :
    (pushListener b cb l).sel b = l.sel b ++ [cb]
    ∧ (pushListener b cb l).sel (!b) = l.sel (!b) := by
  cases b <;> exact ⟨rfl, rfl⟩

/-- C10: a call of addRuleListener whose third argument is a boolean b is
treated exactly like a call with no tag and preorder flag b: the callback is
appended, in registration order, to the phase-b listener list for the rule
name in the DEFAULT listener set, the other phase's list for that name is
unchanged, and no tagged listener set is created, selected or modified. -/
theorem c10_boolean_third_argument (ls : Listeners) (name : String) (cb : Nat) (b p : Bool) :
    (addRuleListener ls name cb (TagArg.boolOf b) p).taggedListeners = ls.taggedListeners
    ∧ ruleListOf (addRuleListener ls name cb (TagArg.boolOf b) p).defaultListeners name b
        = ruleListOf ls.defaultListeners name b ++ [cb]
    ∧ ruleListOf (addRuleListener ls name cb (TagArg.boolOf b) p).defaultListeners name (!b)
        = ruleListOf ls.defaultListeners name (!b)
    ∧ addRuleListener ls name cb (TagArg.boolOf b) p = addRuleListener ls name cb TagArg.noArg b := by
  have hred : (addRuleListener ls name cb (TagArg.boolOf b) p).defaultListeners.ruleListeners
      = addToRuleLists ls.defaultListeners.ruleListeners name b cb := rfl
  refine ⟨rfl, ?_, ?_, rfl⟩
  · unfold ruleListOf
    rw [hred, addToRuleLists_lookup, Option.getD_some]
    exact (sel_pushListener b cb _).1
  · unfold ruleListOf
    rw [hred, addToRuleLists_lookup, Option.getD_some]
    exact (sel_pushListener b cb _).2

/-- The mutable analysis fields of a processor instance: the per-pass scope
history _scopes (creation order), the call stack, the module cache
_moduleList, the scope stack _scopeStack (its top is the last element), and
the current, current-global and master-global scope fields.  The scope
fields are optional because the constructor leaves them undefined. -/
structure CPState where
  scopes : List Scope
  callStack : List Scope
  moduleList : List String
  scopeStack : List Scope
  currentScope : Option Scope
  currentGlobalScope : Option Scope
  masterGlobalScope : Option Scope
deriving DecidableEq

/-- The state of a freshly constructed processor instance. -/
def initState : CPState :=
  { scopes := [], callStack := [], moduleList := [], scopeStack := [],
    currentScope := none, currentGlobalScope := none, masterGlobalScope := none }

/-- The method _createScope: build a scope with the given context and an
empty symbol table and append it to the pass-wide scope history. -/
def createScope (st : CPState) (name file : String) (line col : Nat) : CPState × Scope :=
  let s : Scope := { context := { name := name, file := file, line := line, col := col },
                     symbols := [] }
  ({ st with scopes := st.scopes ++ [s] }, s)

/-- The method _enterScope: remember the old current scope, make the given
scope current, push it on the scope stack, and fire a contextChange event
whose previousContext is the old scope's context, or undefined when there
was no current scope yet. -/
def enterScope (st : CPState) (scope : Scope) : CPState × TraceEvent :=
  ({ st with currentScope := some scope, scopeStack := st.scopeStack ++ [scope] },
   TraceEvent.stateEvent "contextChange"
     [("previousContext",
       match st.currentScope with
       | some old => EVal.vctx old.context
       | none => EVal.vUndefined)])

/-- The method _exitScope: pop the scope stack, make the new top current,
and fire a contextChange event carrying the popped scope's context; on an
empty stack the source reads the context field of undefined, a fatal type
error. -/
def exitScope (st : CPState) : Except String (CPState × TraceEvent) :=
  match st.scopeStack.getLast? with
  | none => Except.error "TypeError: popped scope is undefined"
  | some old =>
    let rest := st.scopeStack.dropLast
    Except.ok ({ st with scopeStack := rest, currentScope := rest.getLast? },
      TraceEvent.stateEvent "contextChange" [("previousContext", EVal.vctx old.context)])

/-- A parse failure reported by the external UglifyJS parser collaborator:
the fields read off the thrown exception. -/
structure ParseFailure where
  message : String
  line : Nat
  col : Nat
deriving DecidableEq

/-- The external collaborators of the walker: whether a path exists on the
file system, and the result of parsing the file at a path — the node infos
of its top-level statements, or a parse failure. -/
structure Collab where
  fileExists : String → Bool
  parseFile : String → Except ParseFailure (List RuleInfo)

/-- Dispatches a file's top-level statement nodes in source order through
the method _processRule; a thrown internal error aborts the remainder. -/
def processStatements : List RuleInfo → Except String (List TraceEvent)
  | [] => Except.ok []
  | info :: rest =>
    match processRule info with
    | .error m => Except.error m
    | .ok evts =>
      match processStatements rest with
      | .error m => Except.error m
      | .ok evts2 => Except.ok (evts ++ evts2)

/-- The method _processFile.  When the path does not exist, fire
fileLoadError and return.  Otherwise fire fileProcessingBegin, create a
file-scoped global scope when createContext is set, enter the current
global scope, parse the file (a parse failure fires parseError — whose
payload spells the column field "col" — and returns), and dispatch each
top-level statement.  No scope is exited at the end of the file.  The
returned value is the updated state and the events fired, or a fatal
internal error.  (The none branch for the current global scope is
unreachable from _processProject, which always sets the field first.) -/
def processFile (c : Collab) (file : String) (createContext : Bool) (st : CPState) :
    Except String (CPState × List TraceEvent) :=
  if c.fileExists file then
    let beginEvt : TraceEvent := TraceEvent.stateEvent "fileProcessingBegin" [("file", EVal.vs file)]
    let st1 : CPState :=
      if createContext then
        let p := createScope st ("@scopedglobal-" ++ file) file 0 0
        { p.1 with currentGlobalScope := some p.2 }
      else st
    match st1.currentGlobalScope with
    | none => Except.error "TypeError: no current global scope"
    | some g =>
      let p2 := enterScope st1 g
      match c.parseFile file with
      | .error e =>
        Except.ok (p2.1, [beginEvt, p2.2,
          TraceEvent.stateEvent "parseError"
            [("message", EVal.vs e.message), ("file", EVal.vs file),
             ("line", EVal.vn e.line), ("col", EVal.vn e.col)]])
      | .ok stmts =>
        match processStatements stmts with
        | .error m => Except.error m
        | .ok evts => Except.ok (p2.1, [beginEvt, p2.2] ++ evts)
  else
    Except.ok (st, [TraceEvent.stateEvent "fileLoadError"
      [("file", EVal.vs file), ("error", EVal.vs "File Not Found")]])

/-- The fresh global scope a pass creates for an entry point. -/
def globalScopeFor (entryPoint : String) : Scope :=
  { context := { name := "@global", file := entryPoint, line := 0, col := 0 }, symbols := [] }

/-- The initialization the helper processProjectHelper performs at the start
of each pass: reset the scope history, the call stack, the module cache and
the scope stack, and create a fresh master global scope.  The field
_currentScope is NOT reset by the source. -/
def passInit (st : CPState) (entryPoint : String) : CPState :=
  let st1 : CPState := { st with scopes := [], callStack := [], moduleList := [], scopeStack := [] }
  let p := createScope st1 "@global" entryPoint 0 0
  { p.1 with currentGlobalScope := some p.2, masterGlobalScope := some p.2 }

/-- One full pass of the walker: the per-pass initialization followed by the
processing of the entry-point file (createContext is false for the entry). -/
def runPass (c : Collab) (entryPoint : String) (st : CPState) :
    Except String (CPState × List TraceEvent) :=
  processFile c entryPoint false (passInit st entryPoint)

/-- Runs one pass per listener-set label, threading the engine state; each
pass's trace is paired with its label. -/
def processPasses (c : Collab) (entryPoint : String) :
    List (Option String) → CPState →
    Except String (CPState × List (Option String × List TraceEvent))
  | [], st => Except.ok (st, [])
  | t :: rest, st =>
    match runPass c entryPoint st with
    | .error m => Except.error m
    | .ok (st1, evts) =>
      match processPasses c entryPoint rest st1 with
      | .error m => Except.error m
      | .ok (st2, traces) => Except.ok (st2, (t, evts) :: traces)

/-- The method _processProject: one pass per tagged listener set, in the
order the tags were registered, then one final pass for the default
listener set (label none). -/
def processProject (c : Collab) (tags : List String) (entryPoint : String) (st : CPState) :
    Except String (CPState × List (Option String × List TraceEvent)) :=
  processPasses c entryPoint (tags.map some ++ [none]) st

/-- The trace of a file-processing run, the empty trace on a fatal error. -/
def fileTraceOf (r : Except String (CPState × List TraceEvent)) : List TraceEvent :=
  match r with
  | .ok p => p.2
  | .error _ => []

/-- The final state of a file-processing run, a fallback on a fatal error. -/
def stateOf (r : Except String (CPState × List TraceEvent)) (d : CPState) : CPState :=
  match r with
  | .ok p => p.1
  | .error _ => d

/-- The per-pass traces of a project run, in pass order. -/
def passTraces (r : Except String (CPState × List (Option String × List TraceEvent))) :
    List (List TraceEvent) :=
  match r with
  | .ok p => p.2.map Prod.snd
  | .error _ => []

/-- The previousContext field of the first contextChange event of a trace. -/
def firstPrevContext (tr : List TraceEvent) : Option EVal :=
  match tr.filterMap (fun e =>
    match e with
    | TraceEvent.stateEvent "contextChange" pl => some pl
    | _ => none) with
  | pl :: _ => pl.lookup "previousContext"
  | [] => none

/-- The key lists of the parseError payloads occurring in a trace. -/
def parseErrorKeys (tr : List TraceEvent) : List (List String) :=
  tr.filterMap fun e =>
    match e with
    | TraceEvent.stateEvent "parseError" pl => some (pl.map Prod.fst)
    | _ => none

/-- A project whose only file, app.js, parses into one number statement. -/
def oneGoodFile : Collab :=
  { fileExists := fun f => f == "app.js",
    parseFile := fun _ => Except.ok [numInfo] }

/-- A project whose only file, app.js, fails to parse. -/
def oneBadFile : Collab :=
  { fileExists := fun f => f == "app.js",
    parseFile := fun _ => Except.error { message := "Unexpected token", line := 3, col := 7 } }

/-- A project in which no path exists. -/
def noFiles : Collab :=
  { fileExists := fun _ => false,
    parseFile := fun _ => Except.ok [] }

/-- C8: a call of the method _processFile on a path that does not exist
fires exactly one event, fileLoadError with payload file and error = "File
Not Found", leaves the engine state untouched, returns normally (so the
pass goes on), and fires no fileProcessingBegin event. -/
theorem c8_missing_file (c : Collab) (file : String) (createContext : Bool) (st : CPState)
    (h : c.fileExists file = false) :
    processFile c file createContext st = Except.ok (st,
      [TraceEvent.stateEvent "fileLoadError"
        [("file", EVal.vs file), ("error", EVal.vs "File Not Found")]])
    ∧ ∀ pl, TraceEvent.stateEvent "fileProcessingBegin" pl
        ∉ fileTraceOf (processFile c file createContext st) := by
  have h1 : processFile c file createContext st = Except.ok (st,
      [TraceEvent.stateEvent "fileLoadError"
        [("file", EVal.vs file), ("error", EVal.vs "File Not Found")]]) := by
    unfold processFile
    rw [h]
    rfl
  refine ⟨h1, ?_⟩
  intro pl hmem
  rw [h1] at hmem
  simp only [fileTraceOf, List.mem_singleton] at hmem
  injection hmem with hn hp
  exact absurd hn (by decide)

/-- C8 witness: the missing-file behavior at a concrete input. -/
theorem c8_missing_file_witness :
    noFiles.fileExists "app.js" = false
    ∧ processFile noFiles "app.js" false initState = Except.ok (initState,
        [TraceEvent.stateEvent "fileLoadError"
          [("file", EVal.vs "app.js"), ("error", EVal.vs "File Not Found")]]) :=
  ⟨rfl, (c8_missing_file noFiles "app.js" false initState rfl).1⟩

/-- C7: a parse failure fires a parseError event and aborts only the file's
subtree (no rule event fires for the file), but the payload's fields are
message, file, line and COL — not the field column the claim names. -/
theorem c7_parse_error_payload_field_col :
    fileTraceOf (runPass oneBadFile "app.js" initState) =
      [TraceEvent.stateEvent "fileProcessingBegin" [("file", EVal.vs "app.js")],
       TraceEvent.stateEvent "contextChange" [("previousContext", EVal.vUndefined)],
       TraceEvent.stateEvent "parseError"
         [("message", EVal.vs "Unexpected token"), ("file", EVal.vs "app.js"),
          ("line", EVal.vn 3), ("col", EVal.vn 7)]]
    ∧ parseErrorKeys (fileTraceOf (runPass oneBadFile "app.js" initState))
        = [["message", "file", "line", "col"]]
    ∧ ["message", "file", "line", "col"] ≠ ["message", "file", "line", "column"]
    ∧ ((fileTraceOf (runPass oneBadFile "app.js" initState)).all fun e =>
        match e with
        | TraceEvent.ruleFire _ _ => false
        | _ => true) = true := by
  refine ⟨by decide, by decide, by decide, by decide⟩

/-- The engine state after one pass of the one-good-file project. -/
def stAfterGood : CPState := stateOf (runPass oneGoodFile "app.js" initState) initState

/-- The trace of one pass of the one-good-file project. -/
def trAfterGood : List TraceEvent := fileTraceOf (runPass oneGoodFile "app.js" initState)

/-- C9 counterexample: after _processFile finishes dispatching the top-level
statements of app.js, the scope stack is NOT restored to its pre-file state:
before the file it is empty, afterwards the file's scope is still on it. -/
theorem c9_counterexample_stack_not_restored :
    stAfterGood.scopeStack ≠ (passInit initState "app.js").scopeStack := by
  decide

/-- C9 amended: at the end of a file the entered scope is NOT left — it
stays on top of the scope stack (the stack equals its pre-file state plus
that scope) — while the scope history is untouched by the file walk (so the
scope stays recorded in the pass's history); pops, when the method
_exitScope performs them, remove exactly the top of a nonempty stack, so
push/pop well-nesting holds for every pop that occurs. -/
theorem c9_scope_not_left_at_end_of_file (c : Collab) (file : String) (st st2 : CPState)
    (g : Scope) (tr : List TraceEvent)
    (hg : st.currentGlobalScope = some g)
    (hex : c.fileExists file = true)
    (h : processFile c file false st = Except.ok (st2, tr)) :
    st2.scopeStack = st.scopeStack ++ [g]
    ∧ st2.scopes = st.scopes
    ∧ (∀ st0 st1 ev, exitScope st0 = Except.ok (st1, ev) →
        st1.scopeStack = st0.scopeStack.dropLast ∧ st0.scopeStack ≠ []) := by
  have hmain : st2.scopeStack = st.scopeStack ++ [g] ∧ st2.scopes = st.scopes := by
    simp only [processFile, hex, hg, if_true, Bool.false_eq_true, if_false] at h
    split at h
    next e =>
      injection h with h2
      injection h2 with hst htr
      rw [← hst]
      exact ⟨rfl, rfl⟩
    next stmts =>
      split at h
      next m => exact absurd h (by simp)
      next evts =>
        injection h with h2
        injection h2 with hst htr
        rw [← hst]
        exact ⟨rfl, rfl⟩
  refine ⟨hmain.1, hmain.2, ?_⟩
  intro st0 st1 ev hx
  unfold exitScope at hx
  cases hl : st0.scopeStack.getLast? with
  | none => rw [hl] at hx; exact absurd hx (by simp)
  | some old =>
    rw [hl] at hx
    injection hx with hx2
    injection hx2 with hst hev
    constructor
    · rw [← hst]
    · intro hemp
      rw [hemp] at hl
      exact absurd hl (by simp)

/-- C9 witness: the amended statement exercised on the one-good-file
project. -/
theorem c9_scope_not_left_witness :
    (passInit initState "app.js").currentGlobalScope = some (globalScopeFor "app.js")
    ∧ oneGoodFile.fileExists "app.js" = true
    ∧ stAfterGood.scopeStack = (passInit initState "app.js").scopeStack ++ [globalScopeFor "app.js"] := by
  refine ⟨rfl, rfl, ?_⟩
  exact (c9_scope_not_left_at_end_of_file oneGoodFile "app.js" (passInit initState "app.js")
    stAfterGood (globalScopeFor "app.js") trAfterGood rfl rfl rfl).1

/-- C6 counterexample: running one tagged pass and the default pass over the
one-good-file project, the first contextChange of the SECOND pass carries a
present previousContext — the global context left current by the first pass —
although the claim says previousContext is absent for the very first scope
of every pass. -/
theorem c6_counterexample_second_pass_prev_context :
    (passTraces (processProject oneGoodFile ["A"] "app.js" initState)).map firstPrevContext
      = [some EVal.vUndefined, some (EVal.vctx (globalScopeFor "app.js").context)]
    ∧ some (EVal.vctx (globalScopeFor "app.js").context) ≠ some EVal.vUndefined := by
  refine ⟨by decide, by decide⟩

/-- C6 amended: the previousContext carried by the first contextChange of a
pass is the context of the scope that was current when the pass started —
absent exactly when no scope was current yet, which holds only before the
very first scope entry of the engine instance.  After a successful pass the
pass's global scope is left current, and the next pass's initialization does
not clear the current-scope field, so the first contextChange of every later
pass carries the previous pass's context. -/
theorem c6_prev_context_absent_only_first_pass (c : Collab) (entry : String)
    (st st2 : CPState) (tr : List TraceEvent)
    (hex : c.fileExists entry = true)
    (h : runPass c entry st = Except.ok (st2, tr)) :
    firstPrevContext tr = some (match st.currentScope with
      | some old => EVal.vctx old.context
      | none => EVal.vUndefined)
    ∧ st2.currentScope = some (globalScopeFor entry)
    ∧ ∀ entry2, (passInit st2 entry2).currentScope = some (globalScopeFor entry) := by
  have hcur : (passInit st entry).currentScope = st.currentScope := rfl
  have hg2 : (passInit st entry).currentGlobalScope = some (globalScopeFor entry) := rfl
  simp only [runPass, processFile, hex, hg2, if_true, Bool.false_eq_true, if_false] at h
  split at h
  next e =>
    injection h with h2
    injection h2 with hst htr
    rw [← hst, ← htr]
    refine ⟨?_, rfl, fun entry2 => rfl⟩
    simp only [firstPrevContext, enterScope, hcur, List.filterMap]
    rfl
  next stmts =>
    split at h
    next m => exact absurd h (by simp)
    next evts =>
      injection h with h2
      injection h2 with hst htr
      rw [← hst, ← htr]
      refine ⟨?_, rfl, fun entry2 => rfl⟩
      simp only [firstPrevContext, enterScope, hcur, List.filterMap_cons, List.cons_append,
        List.nil_append]
      rfl

/-- C6 witness: the amended statement exercised on the one-good-file
project: the very first pass of a fresh instance has an absent
previousContext, and it leaves the global scope current. -/
theorem c6_prev_context_witness :
    oneGoodFile.fileExists "app.js" = true
    ∧ firstPrevContext trAfterGood = some EVal.vUndefined
    ∧ stAfterGood.currentScope = some (globalScopeFor "app.js") := by
  have hall := c6_prev_context_absent_only_first_pass oneGoodFile "app.js" initState
    stAfterGood trAfterGood rfl rfl
  exact ⟨rfl, hall.1, hall.2.1⟩

/-- Helper: a successful run of processPasses produces exactly one labeled
trace per requested pass label, in order. -/
theorem processPasses_labels (c : Collab) (entry : String) (L : List (Option String))
    (st st2 : CPState) (ps : List (Option String × List TraceEvent))
    (h : processPasses c entry L st = Except.ok (st2, ps)) :
    ps.map Prod.fst = L := by
  induction L generalizing st st2 ps with
  | nil =>
    simp only [processPasses] at h
    injection h with h2
    injection h2 with hst hps
    rw [← hps]
    rfl
  | cons t rest ih =>
    simp only [processPasses] at h
    split at h
    next m heq => exact absurd h (by simp)
    next st1 evts heq =>
      split at h
      next m2 heq2 => exact absurd h (by simp)
      next st3 traces heq2 =>
        injection h with h2
        injection h2 with hst hps
        rw [← hps]
        simp only [List.map_cons, List.cons.injEq, true_and]
        exact ih _ _ _ heq2

/-- C4 counterexample: the pass boundary does NOT isolate all mutable
analysis state — the current-scope field set during the first pass is still
set when the second pass starts, so the second pass's initialized state
differs from a fresh pass's state, and the two otherwise identical passes of
the one-good-file project produce observably different traces. -/
theorem c4_counterexample_state_crosses_passes :
    (passInit stAfterGood "app.js").currentScope ≠ (passInit initState "app.js").currentScope
    ∧ (passTraces (processProject oneGoodFile ["A"] "app.js" initState))[0]?
        ≠ (passTraces (processProject oneGoodFile ["A"] "app.js" initState))[1]? := by
  refine ⟨by decide, by decide⟩

/-- C4 amended: a project run performs one pass per registered tag in order
and a final default pass, and every pass starts from a freshly initialized
analysis state — the scope history holds exactly the fresh master global
scope (whose symbol table is empty, so no binding update of an earlier pass
is visible), and the module cache, scope stack and call stack are empty —
independent of everything the previous passes did; the one exception is the
current-scope field, which is carried over unchanged from the previous
pass. -/
theorem c4_fresh_pass_state (st : CPState) (entry : String) :
    (passInit st entry).scopes = [globalScopeFor entry]
    ∧ (passInit st entry).moduleList = []
    ∧ (passInit st entry).scopeStack = []
    ∧ (passInit st entry).callStack = []
    ∧ (passInit st entry).masterGlobalScope = some (globalScopeFor entry)
    ∧ (passInit st entry).currentGlobalScope = some (globalScopeFor entry)
    ∧ (∀ s, s ∈ (passInit st entry).scopes → s.symbols = [])
    ∧ (passInit st entry).currentScope = st.currentScope
    ∧ ∀ (c : Collab) (tags : List String) (st0 st2 : CPState)
        (ps : List (Option String × List TraceEvent)),
        processProject c tags entry st0 = Except.ok (st2, ps) →
        ps.map Prod.fst = tags.map some ++ [none] := by
  refine ⟨rfl, rfl, rfl, rfl, rfl, rfl, ?_, rfl, ?_⟩
  · intro s hs
    simp only [passInit, createScope, List.nil_append, List.mem_singleton] at hs
    rw [hs]
  · intro c tags st0 st2 ps h
    exact processPasses_labels c entry (tags.map some ++ [none]) st0 st2 ps h

/-- The full result of the two-pass run of the one-good-file project. -/
def projGoodResult : CPState × List (Option String × List TraceEvent) :=
  match processProject oneGoodFile ["A"] "app.js" initState with
  | .ok p => p
  | .error _ => (initState, [])

/-- C4 witness: the amended statement exercised on the one-good-file
project with one tagged pass. -/
theorem c4_fresh_pass_state_witness :
    (passInit stAfterGood "app.js").scopes = [globalScopeFor "app.js"]
    ∧ (passInit stAfterGood "app.js").moduleList = []
    ∧ projGoodResult.2.map Prod.fst = [some "A", none] := by
  have hfresh := c4_fresh_pass_state stAfterGood "app.js"
  refine ⟨hfresh.1, hfresh.2.1, ?_⟩
  exact (c4_fresh_pass_state stAfterGood "app.js").2.2.2.2.2.2.2.2
    oneGoodFile ["A"] initState projGoodResult.1 projGoodResult.2 rfl

/-- The method lookupVariable as it stands in the source: its body is
empty, so every call completes normally with the JS value undefined (none
here), whatever the engine state and the variable name, and no call ever
fails.  The error type records that the call CAN be observed to throw —
which, with this body, it never does. -/
def lookupVariable (st : CPState) (variableName : String) : Except String (Option JSValue) :=
  Except.ok none

/-- The statically known value of the binding x in the failing scenario. -/
def xValue : JSValue := { type := some "Number", value := some "5", name := some "x" }

/-- A function scope that declares nothing, used in the failing scenario. -/
def fnScope : Scope :=
  { context := { name := "f", file := "app.js", line := 1, col := 10 }, symbols := [] }

/-- A global scope binding x, used in the failing scenario. -/
def globScope : Scope :=
  { context := { name := "@global", file := "app.js", line := 0, col := 0 },
    symbols := [("x", xValue)] }

/-- An engine state as seen from inside a rule-event callback fired within
the function scope: the current scope is the function scope and the chain
reaches the global scope, which binds x. -/
def c5FailState : CPState :=
  { scopes := [globScope, fnScope], callStack := [], moduleList := [],
    scopeStack := [globScope, fnScope], currentScope := some fnScope,
    currentGlobalScope := some globScope, masterGlobalScope := some globScope }

/-- C5: the body of lookupVariable is empty, so at the failing input — a
lookup of x from inside a callback whose scope chain reaches a global scope
binding x to a Number — the call returns undefined and ignores the engine
state entirely; undefined is neither the bound JSValue the claim requires
nor the unknown-type marker JSValue (the two things the claim allows), and
the call indeed never fails. -/
theorem c5_lookup_variable_stub_returns_undefined :
    lookupVariable c5FailState "x" = Except.ok none
    ∧ (∀ (st : CPState) (nm : String), lookupVariable st nm = Except.ok none)
    ∧ globScope.symbols.lookup "x" = some xValue
    ∧ (none : Option JSValue) ≠ some xValue
    ∧ (none : Option JSValue) ≠ some unknownJSValue := by
  refine ⟨rfl, fun st nm => rfl, rfl, by decide, by decide⟩

end CodeProc
